import Mathlib

/-!
Verification of the ghastoolkit request engine (octokit.py, codescanning.py).

This file shallowly embeds the REST/GraphQL request engine of the repository:
JSON bodies become an inductive `JValue`, Python dicts become association
lists with insert-or-replace semantics, the HTTP server becomes an explicit
function from page index to response, and each raised exception becomes a
constructor of an error type.  Definitions are translated from the Python
source; the theorems at the end settle the specification claims.
-/

set_option autoImplicit false

namespace GhasToolkit

/-- A decoded JSON value, the result of `response.json()` in the source. -/
inductive JValue where
  | jnull : JValue
  | jbool : Bool → JValue
  | jnum : Int → JValue
  | jstr : String → JValue
  | jarr : List JValue → JValue
  | jobj : List (String × JValue) → JValue
deriving Repr

/-- Python truthiness (`bool(x)`) for the JSON value kinds above:
None, False, 0, empty string, empty list and empty dict are falsy. -/
def JValue.truthy : JValue → Bool
  | .jnull => false
  | .jbool b => b
  | .jnum n => n != 0
  | .jstr s => s != ""
  | .jarr xs => !xs.isEmpty
  | .jobj fs => !fs.isEmpty

/-- Python `str()` of the scalar values that the engine interpolates into
URL paths (`str(None) = "None"`, `str(True) = "True"`, `str(7) = "7"`).
Containers are not interpolated by any caller in the repository; for them we
return a fixed marker string. -/
def JValue.pyStr : JValue → String
  | .jnull => "None"
  | .jbool b => if b then "True" else "False"
  | .jnum n => toString n
  | .jstr s => s
  | .jarr _ => "<list>"
  | .jobj _ => "<dict>"

/-- Python dict lookup `d.get(k)` on an insertion-ordered association list. -/
def lookupA {α : Type} (d : List (String × α)) (k : String) : Option α :=
  (d.find? (fun p => p.1 == k)).map (fun p => p.2)

/-- Python dict assignment `d[k] = v`: replace in place if the key exists
(keeping its position), otherwise append at the end. -/
def insertA {α : Type} (d : List (String × α)) (k : String) (v : α) :
    List (String × α) :=
  if d.any (fun p => p.1 == k) then
    d.map (fun p => if p.1 == k then (k, v) else p)
  else
    d ++ [(k, v)]

/-- Python dict `d.pop(k)` (the removal part): drop the entry for `k`. -/
def removeA {α : Type} (d : List (String × α)) (k : String) :
    List (String × α) :=
  d.filter (fun p => p.1 != k)

/-- Opening brace character, written by code point to keep it out of
string literals. -/
def lbrace : Char := Char.ofNat 123

/-- Closing brace character. -/
def rbrace : Char := Char.ofNat 125

/-- Core of Python `str.format` for the subset the repository uses:
named replacement fields such as `{owner}`, doubled braces as escapes.
The second argument is `none` while scanning literal text and `some acc`
(reversed key characters) while inside a replacement field.  `none` as a
result models the exception `str.format` raises: a KeyError for a missing
field name (including the empty auto-numbering field, which has no
positional arguments here) or a ValueError for an unmatched brace.
Conversion and format-spec syntax (`{x!r}`, `{x:>8}`) is not used by any
path template in the repository and is not modelled. -/
def pyFmtAux (env : List (String × String)) :
    List Char → Option (List Char) → Option String
  | [], none => some ""
  | [], some _ => none
  | [c], none =>
    if c = lbrace then none
    else if c = rbrace then none
    else some c.toString
  | c :: c2 :: rest2, none =>
    if c = lbrace then
      if c2 = lbrace then
        (pyFmtAux env rest2 none).map (fun s => lbrace.toString ++ s)
      else
        pyFmtAux env (c2 :: rest2) (some [])
    else if c = rbrace then
      if c2 = rbrace then
        (pyFmtAux env rest2 none).map (fun s => rbrace.toString ++ s)
      else none
    else
      (pyFmtAux env (c2 :: rest2) none).map (fun s => c.toString ++ s)
  | c :: rest, some acc =>
    if c = rbrace then
      match lookupA env (String.mk acc.reverse) with
      | none => none
      | some v => (pyFmtAux env rest none).map (fun s => v ++ s)
    else
      pyFmtAux env rest (some (c :: acc))

/-- Python `path.format(**env)` restricted as described in `pyFmtAux`. -/
def pyFormat (path : String) (env : List (String × String)) : Option String :=
  pyFmtAux env path.data none

/-- The repository value object: only the `owner` and `repo` fields are read
by the request engine. -/
structure Repository where
  owner : String
  repo : String
deriving Repr, DecidableEq

/-- The keyword names `Octokit.formatPath` always passes explicitly;
a caller-supplied parameter with one of these names makes the Python call
`path.format(owner=..., org=..., repo=..., **options)` raise a TypeError
for a duplicated keyword argument. -/
def reservedKeys : List String := ["owner", "org", "repo"]

/-- `Octokit.formatPath(path, repo, **options)`: substitute `{owner}`,
`{org}` (both the repository owner), `{repo}`, and each caller-supplied
option (converted with `str`) into the template.  `none` models the
exception escaping `str.format`. -/
def Octokit.formatPath (path : String) (repo : Repository)
    (options : List (String × JValue)) : Option String :=
  if options.any (fun p => reservedKeys.contains p.1) then none
  else
    pyFormat path
      ([("owner", repo.owner), ("org", repo.owner), ("repo", repo.repo)] ++
        options.map (fun p => (p.1, p.2.pyStr)))

/-- Python `s.startswith("/")` for the one-character case the source
uses. -/
def startsWithSlash (s : String) : Bool :=
  match s.data with
  | [] => false
  | c :: _ => c = '/'

/-- `Octokit.route`: format the path, prepend a leading slash when missing,
and prefix the REST or GraphQL base origin (configuration values of the
external GitHub class, passed here as arguments). -/
def Octokit.route (apiRest apiGraphql : String) (path : String)
    (repository : Repository) (rtype : String)
    (options : List (String × JValue)) : Option String :=
  match Octokit.formatPath path repository options with
  | none => none
  | some fp =>
    let fp2 := if startsWithSlash fp then fp else "/" ++ fp
    let url := if rtype = "rest" then apiRest else apiGraphql
    some (url ++ fp2)

/-- The exceptions the REST engine can raise, one constructor per distinct
`raise` site (plus the Python-level errors the engine can run into). -/
inductive ReqError where
  | repositoryNotSet : ReqError
  | routeError : ReqError
  | tokenRequired : ReqError
  | knownError : String → ReqError
  | unexpectedStatus : ReqError
  | serverError : ReqError
  | typeErrorExtend : ReqError
  | keyError : ReqError
deriving Repr, DecidableEq

/-- One HTTP response cycle: status code and decoded JSON body. -/
structure Response where
  status : Nat
  body : JValue
deriving Repr

/-- `__OCTOKIT_ERRORS__ = \x7b401: "Authentication Issue"\x7d` as a lookup. -/
def octokitErrors (status : Nat) : Option String :=
  if status = 401 then some "Authentication Issue" else none

/-- `RestRequest.PER_PAGE`. -/
def PER_PAGE : Nat := 100

/-- `REST_MAX_CALLS` (quota fed to the ratelimit decorators). -/
def REST_MAX_CALLS : Nat := 80

/-- Python `str` of an optional token: `GitHub.token` interpolated by the
f-string `f"token ..."` in `RestRequest.__init__`; `None` prints as the
non-empty string `None`. -/
def pyStrOpt : Option String → String
  | none => "None"
  | some s => s

/-- The session headers built in `RestRequest.__init__` for a given
`GitHub.token`. -/
def mkRestHeaders (token : Option String) : List (String × String) :=
  [("Accept", "application/vnd.github.v3+json"),
   ("X-GitHub-Api-Version", "2022-11-28"),
   ("Authorization", "token " ++ pyStrOpt token)]

/-- Query parameter dictionaries (`parameters` in the source). -/
abbrev Params := List (String × JValue)

/-- The outcome of `RestRequest.get`: the returned value or raised error,
how many HTTP requests were issued, and the final state of the (mutated in
place) `parameters` dictionary. -/
structure GetOutcome where
  result : Except ReqError JValue
  calls : Nat
  params : Params
deriving Repr

/-- The `while True` pagination loop of `RestRequest.get`, driven by an
explicit `server` mapping each page index to its response.  `fuel` bounds
the number of iterations (the Python loop itself has no bound); `none`
means the fuel ran out before the loop finished.  Per iteration the loop
sets `params["page"]`, issues the request, classifies a non-expected
status via `__OCTOKIT_ERRORS__`, raises on a dict body with a truthy
`errors` entry, returns a dict body directly, and otherwise extends the
accumulator, stopping when a page is shorter than `PER_PAGE`.  A string
body is extended character by character (Python `list.extend` on `str`);
a non-iterable body raises a TypeError. -/
def getLoop (server : Nat → Response) (expected : Nat) :
    Nat → Nat → Params → List JValue → Option GetOutcome
  | 0, _, _, _ => none
  | fuel + 1, page, params, acc =>
    let params1 := insertA params "page" (.jnum page)
    let resp := server page
    if resp.status ≠ expected then
      match octokitErrors resp.status with
      | some msg => some ⟨.error (.knownError msg), 1, params1⟩
      | none => some ⟨.error .unexpectedStatus, 1, params1⟩
    else
      match resp.body with
      | .jobj fields =>
        if ((lookupA fields "errors").getD .jnull).truthy then
          some ⟨.error .serverError, 1, params1⟩
        else
          some ⟨.ok (.jobj fields), 1, params1⟩
      | .jarr elems =>
        if elems.length < PER_PAGE then
          some ⟨.ok (.jarr (acc ++ elems)), 1, params1⟩
        else
          match getLoop server expected fuel (page + 1) params1 (acc ++ elems) with
          | none => none
          | some o => some ⟨o.result, o.calls + 1, o.params⟩
      | .jstr s =>
        let chars := s.data.map (fun ch => JValue.jstr ch.toString)
        if s.length < PER_PAGE then
          some ⟨.ok (.jarr (acc ++ chars)), 1, params1⟩
        else
          match getLoop server expected fuel (page + 1) params1 (acc ++ chars) with
          | none => none
          | some o => some ⟨o.result, o.calls + 1, o.params⟩
      | _ => some ⟨.error .typeErrorExtend, 1, params1⟩

/-- `RestRequest.get(path, parameters, expected, authenticated)`.
`repo` is `self.repository or GitHub.repository` collapsed into one
optional value; `token` is `GitHub.token`; `server` stands for the
network.  In source order: missing repository raises, the route is built
(raising on an unresolved placeholder), then the authentication guard
checks truthiness of the `Authorization` header built in `__init__`, then
`per_page` is written into the caller-supplied dictionary and the
pagination loop runs.  The ratelimit decorators only delay calls and are
not modelled. -/
def RestRequest.get (apiRest : String) (repo : Option Repository)
    (token : Option String) (server : Nat → Response) (path : String)
    (parameters : Params) (expected : Nat) (authenticated : Bool)
    (fuel : Nat) : Option GetOutcome :=
  match repo with
  | none => some ⟨.error .repositoryNotSet, 0, parameters⟩
  | some r =>
    match Octokit.route apiRest "" path r "rest" parameters with
    | none => some ⟨.error .routeError, 0, parameters⟩
    | some _url =>
      let authHeader := (lookupA (mkRestHeaders token) "Authorization").getD ""
      if authenticated ∧ authHeader = "" then
        some ⟨.error .tokenRequired, 0, parameters⟩
      else
        let params := insertA parameters "per_page" (.jnum (PER_PAGE : Nat))
        getLoop server expected fuel 1 params []

/-- `RestRequest.postJson(path, data, expected)`: single POST, same
repository precondition and status classification, no pagination. -/
def RestRequest.postJson (apiRest : String) (repo : Option Repository)
    (server : Response) (path : String) (expected : Nat) :
    Except ReqError JValue :=
  match repo with
  | none => .error .repositoryNotSet
  | some r =>
    match Octokit.route apiRest "" path r "rest" [] with
    | none => .error .routeError
    | some _url =>
      if server.status ≠ expected then
        match octokitErrors server.status with
        | some msg => .error (.knownError msg)
        | none => .error .unexpectedStatus
      else
        .ok server.body

/-- The parameter-building loop of the `wrap` closure in
`RestRequest.restGet`: walk `inspect.getfullargspec(func).args`, skipping
`self` (which does not advance `args_index`), setting the `response` flag
when a parameter has that name, taking the positional argument at
`args_index` when one was supplied, otherwise `None`.  The fallback branch
to declared defaults is guarded by `len(defaults) < 0`, which can never
hold, and is translated as written. -/
def restGetParamsGo (args defaults : List JValue) :
    List String → Nat → Params → Bool → Params × Bool
  | [], _, params, resp => (params, resp)
  | argv :: rest, idx, params, resp =>
    if argv = "self" then
      restGetParamsGo args defaults rest idx params resp
    else
      let resp1 := resp || (argv == "response")
      let v1 := if idx < args.length then args.getD idx .jnull else .jnull
      let v2 :=
        if v1.truthy = false ∧ (defaults.length : Int) < 0 then
          defaults.getD (defaults.length - idx) .jnull
        else v1
      restGetParamsGo args defaults rest (idx + 1) (insertA params argv v2) resp1

/-- Parameter map and `response` flag built by the `restGet` wrapper for a
declared parameter list, declared defaults, and supplied positional
arguments. -/
def restGetBuildParams (funcArgs : List String) (defaults : List JValue)
    (args : List JValue) : Params × Bool :=
  restGetParamsGo args defaults funcArgs 0 [] false

/-- A method wrapped by the `restGet` decorator: its declared argument
names (as `inspect` reports them, `self` included), its declared default
values, and the value its body returns when invoked. -/
structure WrappedMethod where
  funcArgs : List String
  defaults : List JValue
  body : JValue

/-- Errors escaping the `restGet` wrapper. -/
inductive WrapError where
  | reqError : ReqError → WrapError
  | typeErrorKeyword : WrapError
  | fuelOut : WrapError
deriving Repr, DecidableEq

set_option linter.unusedVariables false

/-- The `wrap` closure produced by `RestRequest.restGet(url, authenticated)`
around a method `fn`, applied to positional arguments `args`.  It builds
the parameter map, then calls `rest.get(url, parameters=params)` — note
that the decorator flag `authenticated` is not forwarded, so `get` runs
with its default `authenticated=False`.  When the `response` flag is set
the original method is invoked as `func(self, responce=result)`: the
keyword is spelled `responce`, so the call raises a TypeError unless the
method actually declares a parameter of that exact name. -/
def RestRequest.restGet (apiRest : String) (repo : Option Repository)
    (token : Option String) (server : Nat → Response) (url : String)
    (authenticated : Bool) (fn : WrappedMethod) (args : List JValue)
    (fuel : Nat) : Except WrapError JValue :=
  let pr := restGetBuildParams fn.funcArgs fn.defaults args
  match RestRequest.get apiRest repo token server url pr.1 200 false fuel with
  | none => .error .fuelOut
  | some o =>
    match o.result with
    | .error e => .error (.reqError e)
    | .ok result =>
      if pr.2 then
        if fn.funcArgs.contains "responce" then .ok fn.body
        else .error .typeErrorKeyword
      else .ok result

/-- First character of a `string.Template` identifier (ASCII letter or
underscore). -/
def isIdStart (c : Char) : Bool := c.isAlpha || c = '_'

/-- Continuation character of a `string.Template` identifier. -/
def isIdCont (c : Char) : Bool := c.isAlphanum || c = '_'

/-- Python `string.Template(query).substitute(**env)`: `$$` is an escaped
dollar, `$name` and `$\x7bname\x7d` are substituted.  The second argument is
`some acc` while scanning a braced identifier.  `none` models the raised
exception: a KeyError for an unknown identifier or a ValueError for an
invalid `$` sequence. -/
def tmplAux (env : List (String × String)) :
    Nat → List Char → Option (List Char) → Option String
  | 0, _, _ => none
  | _ + 1, [], none => some ""
  | _ + 1, [], some _ => none
  | fuel + 1, c :: rest, none =>
    if c = '$' then
      match rest with
      | [] => none
      | c2 :: rest2 =>
        if c2 = '$' then
          (tmplAux env fuel rest2 none).map (fun s => "$" ++ s)
        else if c2 = lbrace then
          tmplAux env fuel rest2 (some [])
        else if isIdStart c2 then
          let key := String.mk (c2 :: rest2.takeWhile isIdCont)
          match lookupA env key with
          | none => none
          | some v =>
            (tmplAux env fuel (rest2.dropWhile isIdCont) none).map
              (fun s => v ++ s)
        else none
    else
      (tmplAux env fuel rest none).map (fun s => c.toString ++ s)
  | fuel + 1, c :: rest, some acc =>
    if c = rbrace then
      let key := acc.reverse
      if (match key with
          | [] => false
          | k0 :: ks => isIdStart k0 && ks.all isIdCont) then
        match lookupA env (String.mk key) with
        | none => none
        | some v => (tmplAux env fuel rest none).map (fun s => v ++ s)
      else none
    else
      tmplAux env fuel rest (some (c :: acc))

/-- `GraphQLRequest.formatQuery(query, **options)`.  The fuel
`query.length + 1` is enough for `tmplAux`, which consumes at least one
character per step. -/
def GraphQLRequest.formatQuery (query : String)
    (options : List (String × String)) : Option String :=
  tmplAux options (query.data.length + 1) query.data none

/-- Errors escaping `GraphQLRequest.query`. -/
inductive GqlError where
  | transportError : GqlError
  | templateError : GqlError
  | attributeError : GqlError
deriving Repr, DecidableEq

/-- Outcome of `GraphQLRequest.query`: the returned body or raised error,
plus the list of messages logged as warnings (one `err.get("message")` per
entry of a truthy `errors` array). -/
structure QueryOutcome where
  result : Except GqlError JValue
  warnings : List JValue
deriving Repr

/-- The value `err.get("message")` logged for one entry of the `errors`
array (entries are dicts whenever the loop completes without raising). -/
def errMessage : JValue → JValue
  | .jobj fs => (lookupA fs "message").getD .jnull
  | _ => .jnull

/-- Is this JSON value a dict, so that `.get` is callable on it? -/
def isJObj : JValue → Bool
  | .jobj _ => true
  | _ => false

/-- `GraphQLRequest.query(name, options)`: look the name up in the
preloaded `queries` dict, returning an empty dict on a missing or falsy
template; substitute the template; POST it (the single `server` response
stands for the network); raise on a non-200 status; then, on a dict body,
log one warning per entry of a truthy `errors` value and return the whole
body.  Iterating a truthy non-array `errors` value, or calling `.get` on a
non-dict entry or body, raises (collapsed into `attributeError`). -/
def GraphQLRequest.query (queries : List (String × String)) (name : String)
    (options : List (String × String)) (server : Response) : QueryOutcome :=
  match lookupA queries name with
  | none => ⟨.ok (.jobj []), []⟩
  | some qc =>
    if qc = "" then ⟨.ok (.jobj []), []⟩
    else
      match GraphQLRequest.formatQuery qc options with
      | none => ⟨.error .templateError, []⟩
      | some _query =>
        if server.status ≠ 200 then ⟨.error .transportError, []⟩
        else
          match server.body with
          | .jobj fields =>
            let errs := (lookupA fields "errors").getD .jnull
            if errs.truthy then
              match errs with
              | .jarr errList =>
                if errList.all isJObj then
                  ⟨.ok (.jobj fields), errList.map errMessage⟩
                else ⟨.error .attributeError, []⟩
              | _ => ⟨.error .attributeError, []⟩
            else ⟨.ok (.jobj fields), []⟩
          | _ => ⟨.error .attributeError, []⟩

/-- `CodeScanning.downloadSARIF(output, sarif_id)` restricted to what it
does to the shared session headers: pop `Accept` (KeyError when absent),
set the SARIF media type, run the GET (its outcome is passed in
explicitly), and write the original value back only if the GET returned
normally — an exception propagates with the header still swapped.  The
final file write is external I/O and happens after the restore. -/
def downloadSARIF (headers : List (String × String))
    (getOutcome : Except ReqError JValue) :
    Except ReqError Bool × List (String × String) :=
  match lookupA headers "Accept" with
  | none => (.error .keyError, headers)
  | some og =>
    let h1 := insertA (removeA headers "Accept") "Accept"
      "application/sarif+json"
    match getOutcome with
    | .error e => (.error e, h1)
    | .ok _ => (.ok true, insertA h1 "Accept" og)

/-! ## Fixtures used by the theorems -/

/-- The cloud REST origin (value of `GitHub.api_rest` in the tests). -/
def API : String := "https://api.github.com"

/-- A concrete repository context. -/
def repoAB : Repository := ⟨"A", "B"⟩

/-- Declared argument names of `CodeScanning.getAlerts` as `inspect`
reports them. -/
def getAlertsArgs : List String := ["self", "state", "tool_name", "ref"]

/-- Declared defaults of `CodeScanning.getAlerts
(state="open", tool_name=None, ref=None)`. -/
def getAlertsDefaults : List JValue := [.jstr "open", .jnull, .jnull]

/-- A wrapped method that declares a parameter named `response`. -/
def responseMethod : WrappedMethod :=
  ⟨["self", "response"], [.jnull], .jarr [.jstr "processed"]⟩

/-- A server answering every page with one fixed response. -/
def constServer (r : Response) : Nat → Response := fun _ => r

/-- A server answering page 1 with a full page of 100 elements and every
later page with a single element. -/
def twoPageServer : Nat → Response :=
  fun page =>
    if page = 1 then ⟨200, .jarr (List.replicate 100 .jnull)⟩
    else ⟨200, .jarr [.jnum 7]⟩

/-- The state of the shared mutable default `parameters` dict after one
call made without an explicit argument (Python evaluates the default
`\x7b\x7d` once at definition time, so every such call mutates this one
dict). -/
def defaultDictAfterCall : Params :=
  match RestRequest.get API (some repoAB) (some "t") twoPageServer "/t" []
      200 false 2 with
  | some o => o.params
  | none => []

/-- The full pages of the pagination witness. -/
def c1Front : List (List JValue) := [List.replicate 100 .jnull]

/-- The short final page of the pagination witness. -/
def c1Last : List JValue := [.jnum 1, .jnum 2]

/-- A server for the pagination witness: one full page, then a short one. -/
def c1WitServer : Nat → Response :=
  fun page =>
    if page = 1 then ⟨200, .jarr (List.replicate 100 .jnull)⟩
    else ⟨200, .jarr [.jnum 1, .jnum 2]⟩

/-- Caller-supplied parameters for the parameter-mutation witness. -/
def c10Params : Params := [("state", .jstr "open")]

/-! ## Helper lemmas -/

/-- With the fixture origin, repository, path `/t` and empty parameters,
`RestRequest.get` reduces to its pagination loop (the repository is set,
the route resolves, and with `authenticated := false` the guard passes). -/
theorem get_reduces_to_loop (tok : Option String) (server : Nat → Response)
    (expected fuel : Nat) :
    RestRequest.get API (some repoAB) tok server "/t" [] expected false fuel
      = getLoop server expected fuel 1 [("per_page", .jnum 100)] [] := rfl

/-- `postJson` with the fixture origin reduces to its status
classification. -/
theorem postJson_reduces (server : Response) (expected : Nat) :
    RestRequest.postJson API (some repoAB) server "/t" expected
      = if server.status ≠ expected then
          (match octokitErrors server.status with
           | some msg => .error (.knownError msg)
           | none => .error .unexpectedStatus)
        else .ok server.body := rfl

/-- Replacing the entry for `k` in a list that has one makes `k` findable
with the new value. -/
theorem find?_map_replace {α : Type} (k : String) (v : α) :
    ∀ (d : List (String × α)), d.any (fun p => p.1 == k) = true →
      (d.map (fun p => if p.1 == k then (k, v) else p)).find?
          (fun p => p.1 == k)
        = some (k, v)
  | [], h => by simp at h
  | p :: d, h => by
    by_cases hp : (p.1 == k) = true
    · simp only [List.map_cons, if_pos hp]
      exact List.find?_cons_of_pos (p := fun (q : String × α) => q.1 == k) _ (by simp)
    · have h2 : d.any (fun p => p.1 == k) = true := by
        simpa [List.any_cons, hp] using h
      simp only [List.map_cons, if_neg hp]
      rw [List.find?_cons_of_neg (p := fun (q : String × α) => q.1 == k) _ hp]
      exact find?_map_replace k v d h2

/-- Replacing the entry for `k` does not change which entry `find?` sees
for a different key `k2`. -/
theorem find?_map_replace_other {α : Type} (k k2 : String) (v : α)
    (hne : k2 ≠ k) :
    ∀ (d : List (String × α)),
      ((d.map (fun p => if p.1 == k then (k, v) else p)).find?
          (fun p => p.1 == k2)).map (fun p => p.2)
        = (d.find? (fun p => p.1 == k2)).map (fun p => p.2)
  | [] => by simp
  | p :: d => by
    by_cases hp : (p.1 == k) = true
    · have hk : p.1 = k := by simpa using hp
      have hnotp : ¬((p.1 == k2) = true) := by
        simp only [hk, beq_iff_eq]
        exact fun he => hne he.symm
      simp only [List.map_cons, if_pos hp]
      rw [List.find?_cons_of_neg (p := fun (q : String × α) => q.1 == k2) _
          (by simp only [beq_iff_eq]; exact fun he => hne he.symm),
        List.find?_cons_of_neg (p := fun (q : String × α) => q.1 == k2) _ hnotp]
      exact find?_map_replace_other k k2 v hne d
    · simp only [List.map_cons, if_neg hp]
      by_cases hpk2 : (p.1 == k2) = true
      · rw [List.find?_cons_of_pos (p := fun (q : String × α) => q.1 == k2) _ hpk2,
          List.find?_cons_of_pos (p := fun (q : String × α) => q.1 == k2) _ hpk2]
      · rw [List.find?_cons_of_neg (p := fun (q : String × α) => q.1 == k2) _ hpk2,
          List.find?_cons_of_neg (p := fun (q : String × α) => q.1 == k2) _ hpk2]
        exact find?_map_replace_other k k2 v hne d

/-- `find?` over an append whose left part has no entry for the key. -/
theorem find?_append_right {α : Type} (k : String) (tail : List (String × α)) :
    ∀ (d : List (String × α)), d.any (fun p => p.1 == k) = false →
      (d ++ tail).find? (fun p => p.1 == k) = tail.find? (fun p => p.1 == k)
  | [], _ => by simp
  | p :: d, h => by
    have hp : ¬((p.1 == k) = true) := by
      simp only [List.any_cons, Bool.or_eq_false_iff] at h
      simp [h.1]
    have h2 : d.any (fun p => p.1 == k) = false := by
      simp only [List.any_cons, Bool.or_eq_false_iff] at h
      exact h.2
    rw [List.cons_append, List.find?_cons_of_neg (p := fun (q : String × α) => q.1 == k) _ hp]
    exact find?_append_right k tail d h2

/-- Looking up the just-inserted key finds the new value. -/
theorem lookupA_insertA_self {α : Type} (d : List (String × α)) (k : String)
    (v : α) : lookupA (insertA d k v) k = some v := by
  unfold insertA lookupA
  by_cases h : d.any (fun p => p.1 == k) = true
  · rw [if_pos h, find?_map_replace k v d h]
    rfl
  · rw [if_neg h, find?_append_right k [(k, v)] d (by rw [← Bool.not_eq_true]; exact h)]
    simp

/-- Appending a single entry for `k` does not change `find?` results for a
different key `k2`. -/
theorem find?_append_single_other {α : Type} (k k2 : String) (v : α)
    (hne : k2 ≠ k) :
    ∀ (d : List (String × α)),
      (d ++ [(k, v)]).find? (fun p => p.1 == k2)
        = d.find? (fun p => p.1 == k2)
  | [] => by
    rw [List.nil_append, List.find?_cons_of_neg (p := fun (q : String × α) => q.1 == k2) _
      (by simp only [beq_iff_eq]; exact fun he => hne he.symm)]
  | p :: d => by
    by_cases hpk2 : (p.1 == k2) = true
    · rw [List.cons_append, List.find?_cons_of_pos (p := fun (q : String × α) => q.1 == k2) _ hpk2,
        List.find?_cons_of_pos (p := fun (q : String × α) => q.1 == k2) _ hpk2]
    · rw [List.cons_append, List.find?_cons_of_neg (p := fun (q : String × α) => q.1 == k2) _ hpk2,
        List.find?_cons_of_neg (p := fun (q : String × α) => q.1 == k2) _ hpk2]
      exact find?_append_single_other k k2 v hne d

/-- Inserting one key leaves lookups of every other key unchanged. -/
theorem lookupA_insertA_other {α : Type} (d : List (String × α))
    (k k2 : String) (v : α) (hne : k2 ≠ k) :
    lookupA (insertA d k v) k2 = lookupA d k2 := by
  unfold insertA lookupA
  by_cases h : d.any (fun p => p.1 == k) = true
  · rw [if_pos h]
    exact find?_map_replace_other k k2 v hne d
  · rw [if_neg h, find?_append_single_other k k2 v hne d]

/-- A page whose body is an object (with no truthy `errors`) is returned
directly by the loop after one call. -/
theorem getLoop_object_page (server : Nat → Response)
    (fields : List (String × JValue)) (params : Params) (acc : List JValue)
    (fuel page : Nat) (hs : server page = ⟨200, .jobj fields⟩)
    (hne : ((lookupA fields "errors").getD .jnull).truthy = false) :
    getLoop server 200 (fuel + 1) page params acc
      = some ⟨.ok (.jobj fields), 1, insertA params "page" (.jnum page)⟩ := by
  simp [getLoop, hs, hne]

/-- The pagination loop over full pages `front` followed by the short page
`last`: it accumulates every element in order and makes one call per
page. -/
theorem getLoop_full_pages (server : Nat → Response) (last : List JValue)
    (hshort : last.length < 100) :
    ∀ (front : List (List JValue)) (start : Nat) (params : Params)
      (acc : List JValue) (fuel : Nat),
      (∀ i, i < front.length →
        server (start + i) = ⟨200, .jarr (front.getD i [])⟩) →
      (∀ x ∈ front, x.length = 100) →
      server (start + front.length) = ⟨200, .jarr last⟩ →
      front.length + 1 ≤ fuel →
      ∃ p, getLoop server 200 fuel start params acc
        = some ⟨.ok (.jarr (acc ++ front.flatten ++ last)),
            front.length + 1, p⟩
  | [], start, params, acc, fuel, hs, hf, hl, hfuel => by
    obtain ⟨f, rfl⟩ : ∃ f, fuel = f + 1 := ⟨fuel - 1, by omega⟩
    have hl0 : server start = ⟨200, .jarr last⟩ := by simpa using hl
    refine ⟨insertA params "page" (.jnum start), ?_⟩
    simp [getLoop, hl0, PER_PAGE, hshort]
  | x :: xs, start, params, acc, fuel, hs, hf, hl, hfuel => by
    obtain ⟨f, rfl⟩ : ∃ f, fuel = f + 1 := ⟨fuel - 1, by omega⟩
    have hx : server start = ⟨200, .jarr x⟩ := by
      have h0 := hs 0 (by simp)
      simpa using h0
    have hxlen : x.length = 100 := hf x (by simp)
    have hs2 : ∀ i, i < xs.length →
        server (start + 1 + i) = ⟨200, .jarr (xs.getD i [])⟩ := by
      intro i hi
      have h1 := hs (i + 1) (by simp only [List.length_cons]; omega)
      rw [show start + (i + 1) = start + 1 + i from by omega] at h1
      simpa [List.getD_cons_succ] using h1
    have hl2 : server (start + 1 + xs.length) = ⟨200, .jarr last⟩ := by
      rw [show start + 1 + xs.length = start + (x :: xs).length from by
        simp only [List.length_cons]; omega]
      exact hl
    obtain ⟨p, hp⟩ := getLoop_full_pages server last hshort xs (start + 1)
      (insertA params "page" (.jnum start)) (acc ++ x) f hs2
      (fun y hy => hf y (by simp [hy])) hl2
      (by simp only [List.length_cons] at hfuel; omega)
    refine ⟨p, ?_⟩
    simp only [getLoop, hx, PER_PAGE, hxlen]
    norm_num
    rw [hp]
    simp [List.append_assoc]

/-- The total length of a flatten of pages that each hold 100 elements. -/
theorem flatten_length_of_full (front : List (List JValue))
    (hfull : ∀ x ∈ front, x.length = 100) :
    front.flatten.length = 100 * front.length := by
  induction front with
  | nil => simp
  | cons x xs ih =>
    rw [List.flatten_cons, List.length_append, hfull x (by simp),
      ih (fun y hy => hfull y (by simp [hy]))]
    simp only [List.length_cons]
    ring

/-- `route` on the fixture path with parameters that do not clash with the
reserved keyword names. -/
theorem route_slash_t (params : Params)
    (hres : params.any (fun p => reservedKeys.contains p.1) = false) :
    Octokit.route API "" "/t" repoAB "rest" params
      = some "https://api.github.com/t" := by
  unfold Octokit.route Octokit.formatPath
  rw [hres]
  rfl

/-- `RestRequest.get` on the fixture path reduces to its loop for any
non-clashing parameter dictionary, first writing `per_page = 100` into
that dictionary. -/
theorem get_reduces_params (tok : Option String) (server : Nat → Response)
    (expected fuel : Nat) (params : Params)
    (hres : params.any (fun p => reservedKeys.contains p.1) = false) :
    RestRequest.get API (some repoAB) tok server "/t" params expected false
        fuel
      = getLoop server expected fuel 1
          (insertA params "per_page" (.jnum 100)) [] := by
  unfold RestRequest.get
  simp only [route_slash_t params hres]
  simp [PER_PAGE]

/-! ## Claim theorems -/

/-- C6: with all placeholders matched, `Octokit.route` returns the selected
base origin followed by the substituted path; the example template with
owner `A`, repo `B` and `alert_number = 7` yields a URL ending in
`/repos/A/B/code-scanning/alerts/7`; a template without a leading slash
gets one prefixed; a placeholder with no matching value is a failure. -/
theorem route_builds_urls :
    Octokit.route API "gql"
        "/repos/{owner}/{repo}/code-scanning/alerts/{alert_number}" repoAB
        "rest" [("alert_number", .jnum 7)]
      = some "https://api.github.com/repos/A/B/code-scanning/alerts/7"
    ∧ Octokit.route API "gql" "repos/{owner}" repoAB "rest" []
      = some "https://api.github.com/repos/A"
    ∧ Octokit.route API "gql" "/x/{missing}" repoAB "rest" [] = none :=
  ⟨by decide, by decide, by decide⟩

/-- C4 (code bug): the wrapper maps supplied positional arguments to the
declared names in order, and the claimed concrete example does produce
`state = "closed", tool_name = None, ref = None`; but an omitted trailing
argument never receives its declared default, because the fallback branch
is guarded by the impossible test `len(defaults) < 0` — calling
`getAlerts()` with no arguments yields `state = None` where the
declaration says `state = "open"`. -/
theorem restGet_defaults_never_applied :
    (restGetBuildParams getAlertsArgs getAlertsDefaults [.jstr "closed"]).1
      = [("state", .jstr "closed"), ("tool_name", .jnull), ("ref", .jnull)]
    ∧ (restGetBuildParams getAlertsArgs getAlertsDefaults []).1
      = [("state", .jnull), ("tool_name", .jnull), ("ref", .jnull)] :=
  ⟨rfl, rfl⟩

/-- C5 (code bug): for a wrapped method declaring a parameter named
`response` the wrapper does perform the GET first and does intend to call
the body, but it invokes `func(self, responce=result)` — the keyword is
misspelled `responce` — so the invocation raises a TypeError instead of
binding the raw result to `response` and returning the body's value. -/
theorem restGet_responce_keyword_mismatch :
    (restGetBuildParams responseMethod.funcArgs responseMethod.defaults []).2
      = true
    ∧ RestRequest.restGet API (some repoAB) (some "t")
        (constServer ⟨200, .jarr []⟩) "/t" false responseMethod [] 1
      = .error .typeErrorKeyword :=
  ⟨rfl, rfl⟩

/-- C3 (code bug): with no token configured, `RestRequest.__init__` still
sets `Authorization` to the truthy string `token None`, so the
`authenticated=True` guard in `get` never fires: the call proceeds to
issue the HTTP request (one call is made) and returns the body instead of
failing first.  The `restGet` decorator never even forwards its
`authenticated` flag to `get`, so decorator-declared endpoints make the
request as well. -/
theorem auth_guard_never_fires :
    lookupA (mkRestHeaders none) "Authorization" = some "token None"
    ∧ RestRequest.get API (some repoAB) none
        (constServer ⟨200, .jobj [("ok", .jbool true)]⟩) "/t" [] 200 true 1
      = some ⟨.ok (.jobj [("ok", .jbool true)]), 1,
          [("per_page", .jnum 100), ("page", .jnum 1)]⟩
    ∧ RestRequest.restGet API (some repoAB) none
        (constServer ⟨200, .jobj [("ok", .jbool true)]⟩) "/t" true
        ⟨["self"], [], .jobj []⟩ [] 1
      = .ok (.jobj [("ok", .jbool true)]) :=
  ⟨rfl, rfl, rfl⟩

/-- C2 counterexample: a 200 response whose body is the object
`\x7b"errors": []\x7d` — an object containing an `errors` field — is
returned by `RestRequest.get` as a successful result, because the source
tests the field for truthiness, not presence; no ServerError-kind failure
is raised. -/
theorem rest_errors_empty_returned :
    RestRequest.get API (some repoAB) (some "t")
        (constServer ⟨200, .jobj [("errors", .jarr [])]⟩) "/t" [] 200 false 1
      = some ⟨.ok (.jobj [("errors", .jarr [])]), 1,
          [("per_page", .jnum 100), ("page", .jnum 1)]⟩ := rfl

/-- C7 counterexample: a 401 response does not raise when the caller asked
for `expected = 401`; `RestRequest.get` treats it as the expected status
and returns the body. -/
theorem status_401_expected_returns :
    RestRequest.get API (some repoAB) (some "t")
        (constServer ⟨401, .jarr []⟩) "/t" [] 401 false 1
      = some ⟨.ok (.jarr []), 1,
          [("per_page", .jnum 100), ("page", .jnum 1)]⟩ := rfl

/-- C7 (amended): for every response with HTTP status 401 and every
expected status other than 401, `RestRequest.get` and
`RestRequest.postJson` raise the `Authentication Issue` error from the
status table, irrespective of the body, after exactly one HTTP call. -/
theorem status_401_raises (expected : Nat) (h : expected ≠ 401)
    (body : JValue) :
    RestRequest.get API (some repoAB) (some "t")
        (constServer ⟨401, body⟩) "/t" [] expected false 1
      = some ⟨.error (.knownError "Authentication Issue"), 1,
          [("per_page", .jnum 100), ("page", .jnum 1)]⟩
    ∧ RestRequest.postJson API (some repoAB) ⟨401, body⟩ "/t" expected
      = .error (.knownError "Authentication Issue") := by
  have h401 : (401 : Nat) ≠ expected := fun he => h he.symm
  constructor
  · rw [get_reduces_to_loop]
    simp [getLoop, constServer, h401, octokitErrors, insertA, lookupA]
  · rw [postJson_reduces]
    simp [constServer, h401, octokitErrors]

/-- Witness for the amended C7 theorem at `expected = 200`, `body = null`. -/
theorem status_401_raises_witness :
    (200 : Nat) ≠ 401
    ∧ (RestRequest.get API (some repoAB) (some "t")
          (constServer ⟨401, .jnull⟩) "/t" [] 200 false 1
        = some ⟨.error (.knownError "Authentication Issue"), 1,
            [("per_page", .jnum 100), ("page", .jnum 1)]⟩
      ∧ RestRequest.postJson API (some repoAB) ⟨401, .jnull⟩ "/t" 200
        = .error (.knownError "Authentication Issue")) :=
  ⟨by decide, status_401_raises 200 (by decide) .jnull⟩

/-- C9 counterexample: when the GET inside `downloadSARIF` raises, the
exception propagates before the restore line runs, so the session headers
are left with the SARIF media type — they are not unchanged on every
outcome. -/
theorem downloadSARIF_failure_leaves_header :
    lookupA (downloadSARIF (mkRestHeaders (some "t"))
        (.error .unexpectedStatus)).2 "Accept"
      = some "application/sarif+json"
    ∧ (downloadSARIF (mkRestHeaders (some "t"))
        (.error .unexpectedStatus)).2
      ≠ mkRestHeaders (some "t") :=
  ⟨rfl, by decide⟩

/-- C9 (amended): when the GET returns normally, `downloadSARIF` restores
the original `Accept` value, so afterwards every header lookup on the
session gives the same value as before the call (the dict is re-ordered
by the pop/re-insert, but maps every key as before). -/
theorem downloadSARIF_success_restores (token : Option String) (v : JValue)
    (k : String) :
    (downloadSARIF (mkRestHeaders token) (.ok v)).1 = .ok true
    ∧ lookupA (downloadSARIF (mkRestHeaders token) (.ok v)).2 k
      = lookupA (mkRestHeaders token) k := by
  refine ⟨rfl, ?_⟩
  show lookupA [("X-GitHub-Api-Version", "2022-11-28"),
      ("Authorization", "token " ++ pyStrOpt token),
      ("Accept", "application/vnd.github.v3+json")] k
    = lookupA (mkRestHeaders token) k
  unfold mkRestHeaders lookupA
  by_cases h1 : ("Accept" : String) = k
  · subst h1
    rfl
  · by_cases h2 : ("X-GitHub-Api-Version" : String) = k
    · subst h2
      rfl
    · by_cases h3 : ("Authorization" : String) = k
      · subst h3
        rfl
      · have hb1 : (("Accept" : String) == k) = false := by
          simp [beq_iff_eq]; exact h1
        have hb2 : (("X-GitHub-Api-Version" : String) == k) = false := by
          simp [beq_iff_eq]; exact h2
        have hb3 : (("Authorization" : String) == k) = false := by
          simp [beq_iff_eq]; exact h3
        simp [List.find?, hb1, hb2, hb3]

/-- C2 (amended): for every 200 response whose body is an object whose
`errors` field holds a truthy value (here: a non-empty array),
`RestRequest.get` raises the ServerError-kind failure and never returns
the body, whereas `GraphQLRequest.query` on the same body does not raise:
it logs one warning per error entry (each entry's `message` value) and
returns the full response body to the caller. -/
theorem errors_envelope_behaviour (fields : List (String × JValue))
    (errs : List JValue)
    (herr : lookupA fields "errors" = some (.jarr errs)) (hne : errs ≠ [])
    (hobj : errs.all isJObj = true) :
    RestRequest.get API (some repoAB) (some "t")
        (constServer ⟨200, .jobj fields⟩) "/t" [] 200 false 1
      = some ⟨.error .serverError, 1,
          [("per_page", .jnum 100), ("page", .jnum 1)]⟩
    ∧ GraphQLRequest.query [("getInfo", "query info")] "getInfo" []
        ⟨200, .jobj fields⟩
      = ⟨.ok (.jobj fields), errs.map errMessage⟩ := by
  have htr0 : (JValue.jarr errs).truthy = true := by
    cases errs with
    | nil => exact absurd rfl hne
    | cons a l => rfl
  have htr : ((lookupA fields "errors").getD .jnull).truthy = true := by
    rw [herr]
    exact htr0
  constructor
  · rw [get_reduces_to_loop]
    simp [getLoop, constServer, htr, insertA]
  · simp only [GraphQLRequest.query,
      show lookupA [("getInfo", "query info")] "getInfo" = some "query info"
        from rfl,
      show GraphQLRequest.formatQuery "query info" [] = some "query info"
        from rfl]
    simp [herr, htr, htr0, hobj]

/-- Witness for the amended C2 theorem: one error entry with message
`boom`. -/
theorem errors_envelope_behaviour_witness :
    (lookupA [("errors", JValue.jarr [.jobj [("message", .jstr "boom")]])]
        "errors" = some (.jarr [.jobj [("message", .jstr "boom")]])
      ∧ [JValue.jobj [("message", .jstr "boom")]] ≠ []
      ∧ [JValue.jobj [("message", .jstr "boom")]].all isJObj = true)
    ∧ (RestRequest.get API (some repoAB) (some "t")
          (constServer ⟨200,
            .jobj [("errors", .jarr [.jobj [("message", .jstr "boom")]])]⟩)
          "/t" [] 200 false 1
        = some ⟨.error .serverError, 1,
            [("per_page", .jnum 100), ("page", .jnum 1)]⟩
      ∧ GraphQLRequest.query [("getInfo", "query info")] "getInfo" []
          ⟨200, .jobj [("errors", .jarr [.jobj [("message", .jstr "boom")]])]⟩
        = ⟨.ok (.jobj [("errors", .jarr [.jobj [("message", .jstr "boom")]])]),
            [.jobj [("message", .jstr "boom")]].map errMessage⟩) :=
  ⟨⟨rfl, by simp, rfl⟩,
    errors_envelope_behaviour _ _ rfl (by simp) rfl⟩

/-- C1: for every paginated GET whose server returns `k` full pages of
exactly 100 array elements (the pages of `front`) followed by one page of
`m < 100` elements (`last`), `RestRequest.get` returns all page elements
concatenated in order — exactly `100 * k + m` of them — and issues exactly
`k + 1` HTTP calls, stopping precisely at the first short page. -/
theorem get_paginates_until_short_page (k m : Nat)
    (front : List (List JValue)) (last : List JValue)
    (server : Nat → Response) (hk : front.length = k)
    (hfull : ∀ x ∈ front, x.length = 100) (hm : last.length = m)
    (hshort : m < 100)
    (hsf : ∀ i, i < k → server (1 + i) = ⟨200, .jarr (front.getD i [])⟩)
    (hsl : server (1 + k) = ⟨200, .jarr last⟩) :
    ∃ p, RestRequest.get API (some repoAB) (some "t") server "/t" [] 200
          false (k + 2)
        = some ⟨.ok (.jarr (front.flatten ++ last)), k + 1, p⟩
      ∧ (front.flatten ++ last).length = 100 * k + m := by
  subst hk hm
  obtain ⟨p, hp⟩ := getLoop_full_pages server last hshort front 1
    [("per_page", .jnum 100)] [] (front.length + 2) hsf hfull hsl (by omega)
  refine ⟨p, ?_, ?_⟩
  · rw [get_reduces_to_loop]
    simpa using hp
  · rw [List.length_append, flatten_length_of_full front hfull]

/-- Witness for C1 at `k = 1`, `m = 2`: one full page of 100 nulls, then a
page of two numbers. -/
theorem get_paginates_until_short_page_witness :
    (c1Front.length = 1
      ∧ (∀ x ∈ c1Front, x.length = 100)
      ∧ c1Last.length = 2
      ∧ (2 : Nat) < 100
      ∧ (∀ i, i < 1 → c1WitServer (1 + i)
          = ⟨200, JValue.jarr (c1Front.getD i [])⟩)
      ∧ c1WitServer (1 + 1) = ⟨200, JValue.jarr c1Last⟩)
    ∧ ∃ p, RestRequest.get API (some repoAB) (some "t") c1WitServer "/t" []
          200 false (1 + 2)
        = some ⟨.ok (.jarr (c1Front.flatten ++ c1Last)), 1 + 1, p⟩
      ∧ (c1Front.flatten ++ c1Last).length = 100 * 1 + 2 :=
  ⟨⟨rfl, by simp [c1Front], rfl, by omega,
      by
        intro i hi
        have h0 : i = 0 := by omega
        subst h0
        rfl,
      rfl⟩,
    get_paginates_until_short_page 1 2 c1Front c1Last c1WitServer rfl
      (by simp [c1Front]) rfl (by omega)
      (by
        intro i hi
        have h0 : i = 0 := by omega
        subst h0
        rfl)
      rfl⟩

/-- C10: `RestRequest.get` mutates the caller-supplied parameters dict in
place — afterwards it additionally holds `per_page = 100` and
`page = <last page index>` while other entries are untouched; and because
the default value of the `parameters` argument is one shared mutable
dict, calls made without an explicit argument accumulate these keys in
that shared dict (after a two-page call it holds `page = 2`), which is
the very dict the next defaulted call starts from. -/
theorem get_mutates_parameters (params : Params)
    (hres : params.any (fun p => reservedKeys.contains p.1) = false) :
    RestRequest.get API (some repoAB) (some "t")
        (constServer ⟨200, .jobj [("single", .jbool true)]⟩) "/t" params 200
        false 1
      = some ⟨.ok (.jobj [("single", .jbool true)]), 1,
          insertA (insertA params "per_page" (.jnum 100)) "page" (.jnum 1)⟩
    ∧ lookupA (insertA (insertA params "per_page" (.jnum 100)) "page"
        (.jnum 1)) "per_page" = some (.jnum 100)
    ∧ lookupA (insertA (insertA params "per_page" (.jnum 100)) "page"
        (.jnum 1)) "page" = some (.jnum 1)
    ∧ (∀ k2, k2 ≠ "per_page" → k2 ≠ "page" →
        lookupA (insertA (insertA params "per_page" (.jnum 100)) "page"
          (.jnum 1)) k2 = lookupA params k2)
    ∧ defaultDictAfterCall = [("per_page", .jnum 100), ("page", .jnum 2)]
    ∧ (RestRequest.get API (some repoAB) (some "t")
        (constServer ⟨200, .jobj [("single", .jbool true)]⟩) "/t"
        defaultDictAfterCall 200 false 1).map (fun o => o.params)
      = some [("per_page", .jnum 100), ("page", .jnum 1)] := by
  refine ⟨?_, ?_, ?_, ?_, ?_, ?_⟩
  · rw [get_reduces_params (some "t") _ 200 1 params hres]
    exact getLoop_object_page _ _ _ _ 0 1 rfl rfl
  · rw [lookupA_insertA_other _ _ _ _ (by decide)]
    exact lookupA_insertA_self _ _ _
  · exact lookupA_insertA_self _ _ _
  · intro k2 h1 h2
    rw [lookupA_insertA_other _ _ _ _ h2, lookupA_insertA_other _ _ _ _ h1]
  · rfl
  · rfl

/-- Witness for C10 with one pre-existing caller entry. -/
theorem get_mutates_parameters_witness :
    c10Params.any (fun p => reservedKeys.contains p.1) = false
    ∧ (RestRequest.get API (some repoAB) (some "t")
          (constServer ⟨200, .jobj [("single", .jbool true)]⟩) "/t"
          c10Params 200 false 1
        = some ⟨.ok (.jobj [("single", .jbool true)]), 1,
            insertA (insertA c10Params "per_page" (.jnum 100)) "page"
              (.jnum 1)⟩
      ∧ lookupA (insertA (insertA c10Params "per_page" (.jnum 100)) "page"
          (.jnum 1)) "per_page" = some (.jnum 100)
      ∧ lookupA (insertA (insertA c10Params "per_page" (.jnum 100)) "page"
          (.jnum 1)) "page" = some (.jnum 1)
      ∧ (∀ k2, k2 ≠ "per_page" → k2 ≠ "page" →
          lookupA (insertA (insertA c10Params "per_page" (.jnum 100))
            "page" (.jnum 1)) k2 = lookupA c10Params k2)
      ∧ defaultDictAfterCall = [("per_page", .jnum 100), ("page", .jnum 2)]
      ∧ (RestRequest.get API (some repoAB) (some "t")
          (constServer ⟨200, .jobj [("single", .jbool true)]⟩) "/t"
          defaultDictAfterCall 200 false 1).map (fun o => o.params)
        = some [("per_page", .jnum 100), ("page", .jnum 1)]) :=
  ⟨rfl, get_mutates_parameters c10Params rfl⟩

end GhasToolkit
